import Mathlib

/-!
Verification of `byteme::GzipFileReader` (src/include/byteme/GzipFileReader.hpp),
a wrapper around zlib's `gzFile` providing chunked reads of decompressed bytes.

Shallow embedding conventions:
* Bytes are modelled as `Nat`; the buffers are `List Nat`.  The `char`
  specialization (`B = char`) only reinterprets the bit patterns of the same
  bytes, so both buffers carry the same numeric values; the specialization is
  tracked by the `isChar` flag (the `std::is_same<B, char>` compile-time test).
* `size_t` is 64 bits; `sizeT = 2 ^ 64`.  `gzread` returns an `int`: a byte
  count `>= 0`, or `-1` on a library error.  The source line
  `read = gzread(...)` converts that `int` to `size_t`, so `-1` is modelled as
  `sizeT - 1`.
* zlib itself is external to the repository; the responses of `gzread`,
  `gzeof` and `gzerror` enter `advanceWith` as explicit arguments, and the
  valid-stream behaviour of the handle is modelled separately (`advanceStream`).
* A C++ function that can throw is embedded with an explicit outcome
  (`Outcome.raised msg` for `throw std::runtime_error(msg)`); the state at the
  moment of the throw is retained, since the object survives the exception.
-/

namespace Byteme

/-- Width of `size_t` (64-bit platform). -/
def sizeT : Nat := 2 ^ 64

/-- The result of one `gzread(handle, buf, cap)` call: either a produced run of
decompressed bytes (the `int` return is their count, `0 ≤ count ≤ cap`), or the
library error return `-1`. -/
inductive GzReadRes where
  | bytes (bs : List Nat)
  | errRet
  deriving DecidableEq, Repr

/-- The value stored into the `size_t` field `read` by `read = gzread(...)`:
the byte count, or the conversion of `-1` to `size_t`. -/
def gzreadVal : GzReadRes → Nat
  | .bytes bs => bs.length
  | .errRet => sizeT - 1

/-- `gzread` writing `bs` at the start of the buffer `buf` (the bytes beyond
the produced run keep their previous contents). -/
def writeBytes (bs buf : List Nat) : List Nat := bs ++ buf.drop bs.length

/-- The state of a `GzipFileReader<B>` object: the template flag
`isChar = std::is_same<B, char>`, the two vectors `buffer_` and
`counter_buffer`, and the `size_t` member `read`. -/
structure ReaderState where
  isChar : Bool
  buffer_ : List Nat
  counter_buffer : List Nat
  read : Nat
  deriving DecidableEq, Repr

/-- How a call of `operator()` ends: return `true`, return `false`, or throw
`std::runtime_error(msg)`. -/
inductive Outcome where
  | retTrue
  | retFalse
  | raised (msg : String)
  deriving DecidableEq, Repr

/-- The full observable result of one `operator()` call: its outcome, the
object state afterwards (also on the throwing path, where the members have
already been mutated), and whether `gzeof` was consulted during the call. -/
structure AdvanceResult where
  outcome : Outcome
  state : ReaderState
  eofQueried : Bool
  deriving DecidableEq, Repr

/-- `GzipFileReader::operator()`, with the library responses passed in:
`res` is what the single `gzread` call produced, `eof` is what `gzeof` would
answer, `msg` is what `gzerror` would answer.  The body follows the source:
`read = gzread(...)`; then, for `B = char`, `copy_n(buffer_.data(), read,
counter_buffer.data())`; then the `read == 0` / `gzeof` / `gzerror` cascade.
(For `errRet` under `isChar` the C++ `copy_n` of `sizeT - 1` elements is
undefined behaviour; no claim is stated about that combination.) -/
def advanceWith (res : GzReadRes) (eof : Bool) (msg : String)
    (st : ReaderState) : AdvanceResult :=
  let buf1 := match res with
    | .bytes bs => writeBytes bs st.buffer_
    | .errRet => st.buffer_
  let rd := gzreadVal res
  let ctr1 := if st.isChar then buf1.take rd ++ st.counter_buffer.drop rd
              else st.counter_buffer
  let st1 : ReaderState :=
    { st with buffer_ := buf1, counter_buffer := ctr1, read := rd }
  { outcome :=
      if rd = 0 then
        if eof = false then .raised msg else .retFalse
      else .retTrue
    state := st1
    eofQueried := rd = 0 }

/-- `GzipFileReader::buffer()`: `counter_buffer.data()` when `B = char`, else
`buffer_.data()`. -/
def buffer (st : ReaderState) : List Nat :=
  if st.isChar then st.counter_buffer else st.buffer_

/-- `GzipFileReader::available()`: the member `read`. -/
def available (st : ReaderState) : Nat := st.read

/-- The bytes a consumer takes after one call: `buffer()[0:available()]`. -/
def chunk (st : ReaderState) : List Nat := (buffer st).take (available st)

/-- A path, as the open operation sees it: its name, whether the file is
present, and whether it starts with a valid compressed stream header. -/
structure Path where
  name : String
  present : Bool
  validHeader : Bool
  deriving DecidableEq, Repr

/-- Modelled from the spec: `gzopen` belongs to the external decompression
library (zlib), absent from the repository.  Per the spec's collaborator
interface, `open(path) -> handle | failure`, failing on a missing file or on a
file lacking a valid compressed stream header. -/
def gzopen (p : Path) : Option Unit :=
  if p.present && p.validHeader then some () else none

/-- `GZFile::GZFile`: throws `std::runtime_error` exactly when `gzopen`
returned a null handle. -/
def mkGZFile (p : Path) : Except String Unit :=
  match gzopen p with
  | some h => .ok h
  | none => .error ("failed to open file at " ++ p.name)

/-- `GzipFileReader::GzipFileReader(path, buffer_size)`: member-initializes
`gz(path)` (which may throw), `buffer_(buffer_size)` (zero-filled), and
`read(0)`; then resizes `counter_buffer` to `buffer_size` when `B = char`. -/
def mkReader (p : Path) (buffer_size : Nat) (isChar : Bool) :
    Except String ReaderState :=
  match mkGZFile p with
  | .error e => .error e
  | .ok _ => .ok
      { isChar := isChar
        buffer_ := List.replicate buffer_size 0
        counter_buffer := if isChar then List.replicate buffer_size 0 else []
        read := 0 }

/-- The observer calls a consumer can make between two `operator()` calls. -/
inductive ObsOp where
  | bufferOp
  | availOp
  deriving DecidableEq, Repr

/-- One observer call on the object: `buffer()` or `available()`.  Both are
`const` member functions of an object without `mutable` members, so the state
they leave behind is the state they were called on. -/
def observe (st : ReaderState) : ObsOp → ReaderState × (Sum (List Nat) Nat)
  | .bufferOp => (st, Sum.inl (buffer st))
  | .availOp => (st, Sum.inr (available st))

/-- A sequence of observer calls, each run on the state the previous one left. -/
def runObservers (st : ReaderState) : List ObsOp → ReaderState × List (Sum (List Nat) Nat)
  | [] => (st, [])
  | op :: ops =>
    let r := observe st op
    let rest := runObservers r.1 ops
    (rest.1, r.2 :: rest.2)

/-- The handle of a valid compressed file, reduced to the decompressed bytes
not yet read.  One `gzread(handle, buf, cap)` on such a handle produces the
next `min cap remaining` bytes; `gzeof` afterwards answers whether the
remaining content is exhausted. -/
def advanceStream (st : ReaderState) (rem : List Nat) :
    AdvanceResult × List Nat :=
  let cap := st.buffer_.length
  (advanceWith (.bytes (rem.take cap)) (rem.drop cap).isEmpty "" st,
   rem.drop cap)

/-- The documented consumption loop: call `operator()` repeatedly until it
returns `false`, concatenating `buffer()[0:available()]` after every call,
the terminal one included.  `fuel` bounds the iteration; `none` means the
fuel ran out or a call threw. -/
def readAll (st : ReaderState) (rem : List Nat) : Nat → Option (List Nat)
  | 0 => none
  | Nat.succ fuel =>
    let r := advanceStream st rem
    match r.1.outcome with
    | .retTrue =>
      match readAll r.1.state r.2 fuel with
      | some rest => some (chunk r.1.state ++ rest)
      | none => none
    | .retFalse => some (chunk r.1.state)
    | .raised _ => none

/-- The `isChar` flag is a template parameter: no call changes it. -/
theorem advance_isChar_eq (res : GzReadRes) (eof : Bool) (msg : String)
    (st : ReaderState) :
    (advanceWith res eof msg st).state.isChar = st.isChar := by
  cases res <;> rfl

/-- Every `operator()` call sets the member `read` to the converted `gzread`
return before branching, on the throwing path included. -/
theorem advance_read_eq (res : GzReadRes) (eof : Bool) (msg : String)
    (st : ReaderState) :
    (advanceWith res eof msg st).state.read = gzreadVal res := rfl

/-- A byte-producing `gzread` overwrites the start of `buffer_` with the run. -/
theorem advance_buffer_eq (bs : List Nat) (eof : Bool) (msg : String)
    (st : ReaderState) :
    (advanceWith (.bytes bs) eof msg st).state.buffer_
      = writeBytes bs st.buffer_ := rfl

/-- The `copy_n` into `counter_buffer` (under `B = char`) after a
byte-producing `gzread`. -/
theorem advance_counter_eq (bs : List Nat) (eof : Bool) (msg : String)
    (st : ReaderState) :
    (advanceWith (.bytes bs) eof msg st).state.counter_buffer
      = (if st.isChar then
          (writeBytes bs st.buffer_).take bs.length
            ++ st.counter_buffer.drop bs.length
         else st.counter_buffer) := rfl

/-- The outcome of a call as a function of the produced run and the eof
answer. -/
theorem advance_outcome_eq (bs : List Nat) (eof : Bool) (msg : String)
    (st : ReaderState) :
    (advanceWith (.bytes bs) eof msg st).outcome =
      (if 0 < bs.length then Outcome.retTrue
       else if eof then Outcome.retFalse
       else Outcome.raised msg) := by
  cases bs with
  | nil => cases eof <;> simp [advanceWith, gzreadVal]
  | cons a l => simp [advanceWith, gzreadVal]

/-- `writeBytes` never changes the buffer length when the run fits. -/
theorem writeBytes_length (bs buf : List Nat) (h : bs.length ≤ buf.length) :
    (writeBytes bs buf).length = buf.length := by
  unfold writeBytes
  simp
  omega

/-- The run just written is recovered by taking its length back. -/
theorem writeBytes_take (bs buf : List Nat) :
    (writeBytes bs buf).take bs.length = bs :=
  List.take_left bs _

/-- After a byte-producing call that fits the buffer, the consumer view
`buffer()[0:available()]` is exactly the produced run — for both
specializations of `B`. -/
theorem advance_chunk_eq (bs : List Nat) (eof : Bool) (msg : String)
    (st : ReaderState) (h : bs.length ≤ st.buffer_.length) :
    chunk (advanceWith (.bytes bs) eof msg st).state = bs := by
  unfold chunk buffer available
  rw [advance_isChar_eq, advance_read_eq, advance_counter_eq, advance_buffer_eq]
  cases hb : st.isChar with
  | false =>
    simp only [hb, Bool.false_eq_true, if_false, gzreadVal]
    exact writeBytes_take bs _
  | true =>
    simp only [hb, if_true, gzreadVal]
    have h1 : (List.take bs.length (writeBytes bs st.buffer_)).length
        = bs.length := by
      rw [List.length_take, writeBytes_length bs _ h]
      omega
    rw [List.take_left' h1]
    exact writeBytes_take bs _

/-- C1: over a valid compressed file with decompressed content `rem`, running
`operator()` until it returns `false` and concatenating
`buffer()[0:available()]` after every call reconstructs `rem` exactly, for
any reader whose buffer capacity is positive and any sufficient fuel. -/
theorem readAll_reconstructs (fuel : Nat) (rem : List Nat) (st : ReaderState)
    (hcap : 0 < st.buffer_.length) (hfuel : rem.length < fuel) :
    readAll st rem fuel = some rem := by
  induction fuel generalizing rem st with
  | zero => exact absurd hfuel (Nat.not_lt_zero _)
  | succ fuel ih =>
    rcases rem with _ | ⟨a, l⟩
    · have hout : (advanceWith (.bytes ([] : List Nat)) true "" st).outcome
          = Outcome.retFalse := by
        rw [advance_outcome_eq]
        simp
      have hchunk : chunk (advanceWith (.bytes ([] : List Nat)) true "" st).state
          = [] := advance_chunk_eq [] true "" st (Nat.zero_le _)
      simp only [readAll, advanceStream, List.take_nil, List.drop_nil,
        List.isEmpty_nil, hout, hchunk]
    · have hbs : 0 < ((a :: l).take st.buffer_.length).length := by
        rw [List.length_take]
        simp only [List.length_cons]
        omega
      have hfit : ((a :: l).take st.buffer_.length).length
          ≤ st.buffer_.length := by
        rw [List.length_take]
        omega
      have hout : (advanceWith (.bytes ((a :: l).take st.buffer_.length))
          ((a :: l).drop st.buffer_.length).isEmpty "" st).outcome
          = Outcome.retTrue := by
        rw [advance_outcome_eq, if_pos hbs]
      have hchunk : chunk (advanceWith (.bytes ((a :: l).take st.buffer_.length))
          ((a :: l).drop st.buffer_.length).isEmpty "" st).state
          = (a :: l).take st.buffer_.length :=
        advance_chunk_eq _ _ "" st hfit
      have hcap1 : 0 < (advanceWith (.bytes ((a :: l).take st.buffer_.length))
          ((a :: l).drop st.buffer_.length).isEmpty "" st).state.buffer_.length := by
        rw [advance_buffer_eq, writeBytes_length _ _ hfit]
        exact hcap
      have hfuel1 : ((a :: l).drop st.buffer_.length).length < fuel := by
        rw [List.length_drop]
        simp only [List.length_cons] at hfuel ⊢
        omega
      have hrec := ih ((a :: l).drop st.buffer_.length) _ hcap1 hfuel1
      simp only [readAll, advanceStream, hout, hrec, hchunk]
      rw [List.take_append_drop]

/-- Witness for `readAll_reconstructs`: a reader of capacity 4 over a
10-byte decompressed content reconstructs it in chunks of 4, 4, 2. -/
theorem readAll_reconstructs_witness :
    readAll { isChar := false, buffer_ := [0, 0, 0, 0], counter_buffer := [], read := 0 }
        [1, 2, 3, 4, 5, 6, 7, 8, 9, 10] 11
      = some [1, 2, 3, 4, 5, 6, 7, 8, 9, 10] :=
  readAll_reconstructs 11 [1, 2, 3, 4, 5, 6, 7, 8, 9, 10]
    { isChar := false, buffer_ := [0, 0, 0, 0], counter_buffer := [], read := 0 }
    (by decide) (by decide)

/-- C2: for every `operator()` call whose `gzread` produces a run of bytes,
the outcome is exactly: `true` when more than zero bytes were produced,
`false` when zero bytes were produced and the handle is at end-of-stream, and
a thrown `std::runtime_error` carrying the `gzerror` diagnostic when zero
bytes were produced without end-of-stream; the if-chain makes the three
outcomes exhaustive and mutually exclusive. -/
theorem advance_outcome_trichotomy (bs : List Nat) (eof : Bool) (msg : String)
    (st : ReaderState) :
    (advanceWith (.bytes bs) eof msg st).outcome =
      (if 0 < bs.length then Outcome.retTrue
       else if eof then Outcome.retFalse
       else Outcome.raised msg) := by
  cases bs with
  | nil => cases eof <;> simp [advanceWith, gzreadVal]
  | cons a l => simp [advanceWith, gzreadVal]

/-- C3: the code mishandles the library error return of `gzread`.  When
`gzread` returns `-1` (a zlib stream error), the conversion to the `size_t`
member `read` yields `2 ^ 64 - 1`, so `operator()` returns `true` and
`available()` reports `2 ^ 64 - 1`, far above the buffer capacity fixed at
construction (here capacity 4; the same holds at the default 65536). -/
theorem errRet_available_exceeds_capacity :
    (advanceWith .errRet false ""
      { isChar := false, buffer_ := List.replicate 4 0,
        counter_buffer := [], read := 0 }).outcome = Outcome.retTrue ∧
    available (advanceWith .errRet false ""
      { isChar := false, buffer_ := List.replicate 4 0,
        counter_buffer := [], read := 0 }).state = 2 ^ 64 - 1 ∧
    (List.replicate (4 : Nat) (0 : Nat)).length <
      available (advanceWith .errRet false ""
        { isChar := false, buffer_ := List.replicate 4 0,
          counter_buffer := [], read := 0 }).state := by
  refine ⟨?_, ?_, ?_⟩ <;>
    simp [advanceWith, gzreadVal, sizeT, available]

/-- C4 counterexample: an `operator()` call that throws does not leave
`available()` at the value from the last successful call.  Starting from a
state where the last successful call produced 2 bytes, a failing call
(zero bytes, not end-of-stream) throws, but `available()` is now 0, not 2:
the member `read` is overwritten before the throw. -/
theorem advance_error_available_clobbered :
    (advanceWith (.bytes []) false "boom"
      { isChar := false, buffer_ := [9, 9, 9, 9],
        counter_buffer := [], read := 2 }).outcome = Outcome.raised "boom" ∧
    available (advanceWith (.bytes []) false "boom"
      { isChar := false, buffer_ := [9, 9, 9, 9],
        counter_buffer := [], read := 2 }).state = 0 ∧
    available ({ isChar := false, buffer_ := [9, 9, 9, 9], counter_buffer := [], read := 2 } : ReaderState) = 2 ∧
    available (advanceWith (.bytes []) false "boom"
      { isChar := false, buffer_ := [9, 9, 9, 9],
        counter_buffer := [], read := 2 }).state ≠
      available ({ isChar := false, buffer_ := [9, 9, 9, 9], counter_buffer := [], read := 2 } : ReaderState) := by
  decide

/-- C4 amended: when an `operator()` call fails with the decompression error
(zero bytes produced, not end-of-stream), the throw propagates the `gzerror`
message and leaves both buffers exactly as they were after the last
successful call, but `available()` is reset to 0 (the failing call's byte
count) rather than keeping its previous value. -/
theorem advance_error_state (st : ReaderState) (msg : String) :
    (advanceWith (.bytes []) false msg st).outcome = Outcome.raised msg ∧
    (advanceWith (.bytes []) false msg st).state.buffer_ = st.buffer_ ∧
    (advanceWith (.bytes []) false msg st).state.counter_buffer
      = st.counter_buffer ∧
    available (advanceWith (.bytes []) false msg st).state = 0 := by
  refine ⟨?_, ?_, ?_, ?_⟩ <;>
    simp [advanceWith, gzreadVal, writeBytes, available]

/-- C5: for every path that is missing or lacks a valid compressed stream
header, the open fails and the reader constructor throws synchronously with
the open-failure message: no object is created and no `operator()` call is
possible.  (`gzopen` is modelled from the spec's collaborator interface.) -/
theorem open_failure_synchronous (p : Path) (cap : Nat) (b : Bool)
    (h : p.present = false ∨ p.validHeader = false) :
    mkReader p cap b = .error ("failed to open file at " ++ p.name) := by
  unfold mkReader mkGZFile gzopen
  rcases h with h | h <;> simp [h]

/-- Witness for `open_failure_synchronous` at a concrete missing path. -/
theorem open_failure_synchronous_witness :
    mkReader ⟨"missing.gz", false, true⟩ 4 false
      = .error ("failed to open file at " ++ "missing.gz") :=
  open_failure_synchronous ⟨"missing.gz", false, true⟩ 4 false (Or.inl rfl)

/-- C6: under the `B = char` specialization (the requested element type
differs in signedness from the native `unsigned char`), every byte-producing
`operator()` call copies exactly the produced run into `counter_buffer` —
its first `bs.length` entries become the run, the rest are untouched — and
`buffer()` returns the `counter_buffer` view; and the secondary buffer is
present only in that case: construction sizes it to the capacity for
`B = char` and leaves it empty otherwise. -/
theorem secondary_buffer_adaptation (bs : List Nat) (eof : Bool) (msg : String)
    (st : ReaderState) (p : Path) (cap : Nat)
    (hc : st.isChar = true) (hlen : bs.length ≤ st.buffer_.length) :
    ((advanceWith (.bytes bs) eof msg st).state.counter_buffer.take bs.length
        = bs ∧
      (advanceWith (.bytes bs) eof msg st).state.counter_buffer.drop bs.length
        = st.counter_buffer.drop bs.length) ∧
    buffer (advanceWith (.bytes bs) eof msg st).state
      = (advanceWith (.bytes bs) eof msg st).state.counter_buffer ∧
    (∀ stc, mkReader p cap true = .ok stc → stc.counter_buffer.length = cap) ∧
    (∀ stn, mkReader p cap false = .ok stn → stn.counter_buffer = []) := by
  have h1 : (List.take bs.length (writeBytes bs st.buffer_)).length
      = bs.length := by
    rw [List.length_take, writeBytes_length bs _ hlen]
    omega
  refine ⟨⟨?_, ?_⟩, ?_, ?_, ?_⟩
  · rw [advance_counter_eq]
    simp only [hc, if_true]
    rw [List.take_left' h1]
    exact writeBytes_take bs _
  · rw [advance_counter_eq]
    simp only [hc, if_true]
    exact List.drop_left' h1
  · unfold buffer
    rw [advance_isChar_eq]
    simp [hc]
  · intro stc hok
    unfold mkReader mkGZFile at hok
    cases hg : gzopen p with
    | none => rw [hg] at hok; exact absurd hok (by simp)
    | some u =>
      rw [hg] at hok
      injection hok with hst
      subst hst
      simp
  · intro stn hok
    unfold mkReader mkGZFile at hok
    cases hg : gzopen p with
    | none => rw [hg] at hok; exact absurd hok (by simp)
    | some u =>
      rw [hg] at hok
      injection hok with hst
      subst hst
      simp

/-- Witness for `secondary_buffer_adaptation`: a `char` reader of capacity 4
receiving the 3-byte run `[1, 2, 3]`. -/
theorem secondary_buffer_adaptation_witness :
    (((advanceWith (.bytes [1, 2, 3]) true ""
        { isChar := true, buffer_ := [0, 0, 0, 0],
          counter_buffer := [7, 7, 7, 7], read := 0 }).state.counter_buffer.take 3
        = [1, 2, 3]) ∧
      (advanceWith (.bytes [1, 2, 3]) true ""
        { isChar := true, buffer_ := [0, 0, 0, 0],
          counter_buffer := [7, 7, 7, 7], read := 0 }).state.counter_buffer.drop 3
        = List.drop 3 [7, 7, 7, 7]) ∧
    buffer (advanceWith (.bytes [1, 2, 3]) true ""
        { isChar := true, buffer_ := [0, 0, 0, 0],
          counter_buffer := [7, 7, 7, 7], read := 0 }).state
      = (advanceWith (.bytes [1, 2, 3]) true ""
        { isChar := true, buffer_ := [0, 0, 0, 0],
          counter_buffer := [7, 7, 7, 7], read := 0 }).state.counter_buffer ∧
    (∀ stc, mkReader ⟨"ok.gz", true, true⟩ 4 true = .ok stc →
      stc.counter_buffer.length = 4) ∧
    (∀ stn, mkReader ⟨"ok.gz", true, true⟩ 4 false = .ok stn →
      stn.counter_buffer = []) :=
  secondary_buffer_adaptation [1, 2, 3] true ""
    { isChar := true, buffer_ := [0, 0, 0, 0],
      counter_buffer := [7, 7, 7, 7], read := 0 }
    ⟨"ok.gz", true, true⟩ 4 rfl (by decide)

/-- C7: in every `operator()` call, `gzeof` is consulted exactly when the
`read` member set by that call is zero — never when it is nonzero. -/
theorem eof_query_iff_zero_read (res : GzReadRes) (eof : Bool) (msg : String)
    (st : ReaderState) :
    (advanceWith res eof msg st).eofQueried = true ↔ gzreadVal res = 0 := by
  unfold advanceWith
  by_cases h : gzreadVal res = 0
  · cases eof <;> simp [h]
  · simp [h]

/-- C8: immediately after successful construction, `available()` is 0 and the
initial view `buffer()[0:available()]` is empty. -/
theorem initial_available_zero (p : Path) (cap : Nat) (b : Bool)
    (st : ReaderState) (h : mkReader p cap b = .ok st) :
    available st = 0 ∧ chunk st = [] := by
  unfold mkReader mkGZFile at h
  cases hg : gzopen p with
  | none => rw [hg] at h; exact absurd h (by simp)
  | some u =>
    rw [hg] at h
    injection h with hst
    subst hst
    exact ⟨rfl, by simp [chunk, available, buffer]⟩

/-- Witness for `initial_available_zero` at a concrete openable path. -/
theorem initial_available_zero_witness :
    available ({ isChar := false, buffer_ := List.replicate 4 0, counter_buffer := [], read := 0 } : ReaderState) = 0 ∧
    chunk ({ isChar := false, buffer_ := List.replicate 4 0, counter_buffer := [], read := 0 } : ReaderState) = [] :=
  initial_available_zero ⟨"data.gz", true, true⟩ 4 false _ rfl

/-- C9: construction fails exactly when the underlying open fails, and a
buffer capacity of 0 is accepted: with an openable path, `mkReader p 0 b`
succeeds and produces a reader whose buffers are both empty. -/
theorem construction_error_iff_open_failure (p : Path) (cap : Nat) (b : Bool) :
    ((∃ e, mkReader p cap b = .error e) ↔ gzopen p = none) ∧
    (∀ h, gzopen p = some h →
      ∃ st, mkReader p 0 b = .ok st ∧ st.buffer_ = [] ∧ st.counter_buffer = []) := by
  constructor
  · unfold mkReader mkGZFile
    cases hg : gzopen p <;> simp [hg]
  · intro h hg
    unfold mkReader mkGZFile
    rw [hg]
    exact ⟨_, rfl, rfl, by cases b <;> rfl⟩

/-- Witness for `construction_error_iff_open_failure`: with an openable path
and capacity 0, construction succeeds with empty buffers. -/
theorem construction_error_iff_open_failure_witness :
    ∃ st, mkReader ⟨"ok.gz", true, true⟩ 0 true = .ok st ∧
      st.buffer_ = [] ∧ st.counter_buffer = [] :=
  (construction_error_iff_open_failure ⟨"ok.gz", true, true⟩ 7 true).2 () rfl

/-- C10: `buffer()` and `available()` are pure observers: any sequence of
such calls leaves the reader state unchanged, and every call in the sequence
returns the value determined by the state at the start of the sequence — so
between two `operator()` calls they always return the same view and count. -/
theorem observers_pure (ops : List ObsOp) (st : ReaderState) :
    (runObservers st ops).1 = st ∧
    (runObservers st ops).2 = ops.map (fun op => (observe st op).2) := by
  induction ops with
  | nil => exact ⟨rfl, rfl⟩
  | cons op ops ih =>
    cases op <;> simpa [runObservers, observe] using ih

end Byteme
